import Mathlib

/-!
# Frodo: a shallow embedding of `server.go`

The Go program wires three collaborators together: a key/value store with TTL
(`storage`), an event source that fans messages out to streaming subscribers (`sse`) and a
broker consumer (`broker`).  `server.go` holds the three callbacks that connect them
(`OnClientConnect`, `OnChannelCreate`, `OnMessage`), the two HTTP handlers (`/appstatus`,
`/api/stats`) and `defaultValue`.

Conventions of the embedding:

* a Go `string` / `[]byte` is a list of bytes;
* a Go `map` is an association list with at most one entry per key (`AList`);
* stateful code is explicit state passing over `World`; every call of a collaborator
  appends an `Event` to `World.trace`, so that "is called once" and "happens before" can be
  stated;
* what the outside world decides during one callback (the clock, whether the store answers,
  which client transports are broken) is the `Env` argument of that callback.
-/

namespace Frodo

/-! ## Go values -/

/-- A Go `string` (or `[]byte`): an immutable sequence of bytes, not necessarily UTF-8. -/
abbrev GoString := List UInt8

/-- The bytes of a string literal of the source text (Go source is UTF-8). -/
def goStr (s : String) : GoString := s.toUTF8.data.toList

/-- A Go `map[K]V`: finitely many entries, at most one per key. -/
abbrev GoMap (κ ν : Type) := AList (fun _ : κ => ν)

/-! ## `defaultValue` (server.go, lines 137-143) and `os.Getenv` -/

/-- Source: `func defaultValue(a, b string) string`: `b` when `len(a) == 0`, else `a`. -/
def defaultValue (a b : GoString) : GoString :=
  if a.length = 0 then b else a

/-- Standard library `os.Getenv`: the value of the variable, which is empty when the variable
is not present in the environment. -/
def Getenv (environ : GoMap GoString GoString) (key : GoString) : GoString :=
  match environ.lookup key with
  | some v => v
  | none => []

/-! ## `http.ResponseWriter` -/

/-- Standard library `http.ResponseWriter`, as far as the handlers use it.  `status` is
`none` until the header has been written; `body` lists what was passed to `Write`, in
order.  The type `β` of a written chunk is bytes for `/appstatus` and a JSON document for
`/api/stats`. -/
structure ResponseWriter (β : Type) where
  status : Option Nat := none
  header : List (String × String) := []
  body : List β := []

/-- Go `http.StatusOK`. -/
def StatusOK : Nat := 200

/-- Go `http.StatusInternalServerError`. -/
def StatusInternalServerError : Nat := 500

/-- Method `w.WriteHeader(code)`: the first call fixes the status code, later calls are
ignored. -/
def ResponseWriter.WriteHeader {β : Type} (w : ResponseWriter β) (code : Nat) :
    ResponseWriter β :=
  match w.status with
  | some _ => w
  | none => { w with status := some code }

/-- Method `w.Write(bytes)`: writes the header with `StatusOK` when it has not been written
yet, then appends to the body. -/
def ResponseWriter.Write {β : Type} (w : ResponseWriter β) (chunk : β) : ResponseWriter β :=
  let w1 := w.WriteHeader StatusOK
  { w1 with body := w1.body ++ [chunk] }

/-- Method `w.Header().Set(key, value)`: has an effect only before the header is written. -/
def ResponseWriter.HeaderSet {β : Type} (w : ResponseWriter β) (key value : String) :
    ResponseWriter β :=
  match w.status with
  | some _ => w
  | none => { w with header := (key, value) :: w.header.filter (fun kv => kv.1 ≠ key) }

/-- The status code the client receives: the one written, `StatusOK` when the handler
returned without writing any. -/
def ResponseWriter.code {β : Type} (w : ResponseWriter β) : Nat :=
  match w.status with
  | some c => c
  | none => StatusOK

/-! ## The `/appstatus` handler (server.go, lines 93-103) -/

/-- The verb `%t` of `fmt.Sprintf`. -/
def fmtBool (b : Bool) : String :=
  if b then "true" else "false"

/-- Source: the handler of `/appstatus`.  `cacheOK` and `brokerOK` are the results of
`cache.Ping()` and `b.Ping()`. -/
def appstatusHandler (cacheOK brokerOK : Bool) (w : ResponseWriter GoString) :
    ResponseWriter GoString :=
  let statusOK := cacheOK && brokerOK
  let w1 := if !statusOK then w.WriteHeader StatusInternalServerError else w
  w1.Write (goStr ("status:" ++ fmtBool statusOK ++ ",cache:" ++ fmtBool cacheOK
    ++ ",broker:" ++ fmtBool brokerOK))

/-! ## The store (`storage` package)

`storage.go` is not part of the sources at hand; only its test and its calls from
`server.go` are.  The definitions of this section follow the specification (§6, "Persistent
Store") and `storage_test.go`. -/

/-- Modelled from the spec: `storage.Settings` (its declaration is missing).  `KeyTTL` is
the lifetime of a key in seconds; the spec and the tests give a meaning to the values
`n > 0` (expiry) and `0` (no expiry) only, hence a natural number. -/
structure Settings where
  Url : GoString
  KeyTTL : Nat

/-- Modelled from the spec: what the store holds under one key: the value and, when the key
was written with a TTL, the time (in seconds) at which it expires. -/
structure StoredValue where
  value : GoString
  expiresAt : Option Nat
deriving DecidableEq

/-- Modelled from the spec: the state of `storage.Storage` (`storage.go` is missing): its
settings, the keys the store holds, and the number of open connections of its pool. -/
structure Storage where
  settings : Settings
  keys : GoMap GoString StoredValue
  connections : Int

/-- Modelled from the spec: a stored value is still there at time `now` when it has no
expiry or its expiry lies in the future ("a configured TTL after which the key expires"). -/
def StoredValue.live (e : StoredValue) (now : Nat) : Bool :=
  match e.expiresAt with
  | none => true
  | some t => decide (now < t)

/-- Modelled from the spec: `Storage.Set(key, value)` (`storage.go` is missing), executed at
time `now` by a store that answers: "`Set(channel, payload)` with a configured TTL after
which the key expires"; with `KeyTTL = 0` the key is written without expiry
(`TestWithoutTTL`). -/
def Storage.Set (s : Storage) (now : Nat) (key value : GoString) : Storage :=
  let expiry := if 0 < s.settings.KeyTTL then some (now + s.settings.KeyTTL) else none
  { s with keys := s.keys.insert key (StoredValue.mk value expiry) }

/-- Modelled from the spec: `Storage.Get(key)` (`storage.go` is missing), executed at time
`now` by a store that answers: "`Get(channel) → (payload, found)`"; `none` is "not
found". -/
def Storage.Get (s : Storage) (now : Nat) (key : GoString) : Option GoString :=
  match s.keys.lookup key with
  | some e => if e.live now then some e.value else none
  | none => none

/-- Modelled from the spec: `Storage.HasKey(key)` (`storage.go` is missing; the method is
used by `storage_test.go`): whether the store holds a live value under `key`. -/
def Storage.HasKey (s : Storage) (now : Nat) (key : GoString) : Bool :=
  (s.Get now key).isSome

/-- Modelled from the spec: `Storage.ConnectionCount()` (`storage.go` is missing):
"`ConnectionCount() → int`". -/
def Storage.ConnectionCount (s : Storage) : Int :=
  s.connections

/-- A sequence of later writes `(time, key, value)`, applied in order. -/
def Storage.SetAll (s : Storage) : List (Nat × GoString × GoString) → Storage
  | [] => s
  | (t, k, v) :: rest => (s.Set t k v).SetAll rest

/-- The error of a store call, as seen by `server.go`: the store did not answer, or it
holds no value under the key. -/
inductive StoreError
  | unreachable
  | notFound
deriving DecidableEq

/-! ## The world of the callbacks -/

/-- One streaming subscriber (`sse.Client`): its identity and the channel it is bound
to. -/
structure Client where
  id : Nat
  channel : GoString
deriving DecidableEq

/-- Method `c.Channel()`. -/
def Client.Channel (c : Client) : GoString :=
  c.channel

/-- Modelled from the spec: the state of `sse.EventSource` (package `sse` is missing): the
Channel Registry (channel name to its subscribers) and the Last-Message Cache (channel name
to the most recent payload). -/
structure EventSource where
  channels : GoMap GoString (List Client)
  lastMessages : GoMap GoString GoString

/-- A message of the broker (`broker.BrokerMessage`), with the two fields `OnMessage`
reads. -/
structure BrokerMessage where
  Channel : GoString
  Data : List UInt8

/-- An observable effect: a call of a collaborator. -/
inductive Event
  | storeSet (key value : GoString)
  | storeGet (key : GoString)
  | esSendMessage (channel payload : GoString)
  | setLastMessage (channel payload : GoString)
  | clientSend (client : Nat) (payload : GoString)
  | unsubscribe (channel : GoString) (client : Nat)
  | log (line : String)
deriving DecidableEq

/-- What the outside world decides while one callback runs: the clock (seconds), whether
the store answers, and the clients whose transport is broken (a write to them fails). -/
structure Env where
  now : Nat
  storeUp : Bool
  dead : List Nat

/-- The state the callbacks of `run` share: the store `cache`, the event source `es`, and
the trace of the effects so far. -/
structure World where
  cache : Storage
  es : EventSource
  trace : List Event

/-- Appends one effect to the trace. -/
def World.emit (w : World) (e : Event) : World :=
  { w with trace := w.trace ++ [e] }

/-- Standard library `log.Println`. -/
def World.logLine (w : World) (line : String) : World :=
  w.emit (Event.log line)

/-- Modelled from the spec: the call `cache.Set(key, value)` of `server.go` over the
connection to the store (`storage.go` is missing); the callers drop its result.  "Store
unreachable during steady-state Get/Set: non-fatal": when the store does not answer, the
call fails and the store keeps what it held. -/
def cacheSet (env : Env) (w : World) (key value : GoString) : World :=
  let w1 := w.emit (Event.storeSet key value)
  if env.storeUp then { w1 with cache := w1.cache.Set env.now key value } else w1

/-- Modelled from the spec: the call `cache.Get(key)` of `server.go` over the connection to
the store (`storage.go` is missing), returning `(msg, err)`: `err == nil` exactly when the
store answers and holds a value ("`Get(channel) → (payload, found)`"). -/
def cacheGet (env : Env) (w : World) (key : GoString) : World × Except StoreError GoString :=
  let w1 := w.emit (Event.storeGet key)
  if env.storeUp then
    match w1.cache.Get env.now key with
    | some v => (w1, Except.ok v)
    | none => (w1, Except.error StoreError.notFound)
  else (w1, Except.error StoreError.unreachable)

/-! ## The event source (`sse` package), from the specification -/

/-- Modelled from the spec: `EventSource.GetLastMessage(channel)` (package `sse` is
missing): "returns `(payload, found)`". -/
def EventSource.GetLastMessage (es : EventSource) (channel : GoString) : Option GoString :=
  es.lastMessages.lookup channel

/-- Modelled from the spec: `EventSource.SetLastMessage(channel, payload)` (package `sse` is
missing): "unconditional overwrite of the in-memory entry for `channel`". -/
def SetLastMessage (w : World) (channel payload : GoString) : World :=
  { w with
    es := { w.es with lastMessages := w.es.lastMessages.insert channel payload }
    trace := w.trace ++ [Event.setLastMessage channel payload] }

/-- Modelled from the spec: `Client.SendMessage(payload)` (package `sse` is missing): "a
synchronous write to the transport.  Returns an error if the transport is closed or the
write fails".  The result is `true` when the write succeeded. -/
def Client.SendMessage (env : Env) (w : World) (c : Client) (payload : GoString) :
    World × Bool :=
  (w.emit (Event.clientSend c.id payload), !(env.dead.contains c.id))

/-- Modelled from the spec: `Unsubscribe(channelName, client)` (package `sse` is missing):
"idempotent removal — removing a client not present is a no-op.  If the subscriber set
becomes empty, the channel entry is deleted from the Registry (but the Last-Message Cache
entry is retained)". -/
def Unsubscribe (w : World) (channelName : GoString) (c : Client) : World :=
  match w.es.channels.lookup channelName with
  | none => w
  | some subs =>
    if subs.any (fun d => d.id = c.id) then
      let rest := subs.filter (fun d => d.id ≠ c.id)
      let chans := if rest.isEmpty then w.es.channels.erase channelName
        else w.es.channels.insert channelName rest
      { w with
        es := { w.es with channels := chans }
        trace := w.trace ++ [Event.unsubscribe channelName c.id] }
    else w

/-- Modelled from the spec: the fan-out of one payload over a snapshot of the subscribers
(§4.4, step 4): "for each snapshot member, calls `SendMessage(payload)`; a per-client error
causes that client's `Unsubscribe`". -/
def fanOut (env : Env) (channel payload : GoString) : List Client → World → World
  | [], w => w
  | c :: rest, w =>
    let r := c.SendMessage env w payload
    let w1 := if r.2 then r.1 else Unsubscribe r.1 channel c
    fanOut env channel payload rest w1

/-- Modelled from the spec: `EventSource.SendMessage(channel, payload)` (package `sse` is
missing): steps 1, 3 and 4 of Publish (§4.4): `SetLastMessage(channel, payload)`, a snapshot
of the subscribers of `channel`, the fan-out.  Step 2, the write to the store, is the call
`cache.Set` that `OnMessage` makes itself. -/
def SendMessage (env : Env) (w : World) (channel payload : GoString) : World :=
  let w1 := w.emit (Event.esSendMessage channel payload)
  let w2 := SetLastMessage w1 channel payload
  let snapshot := match w2.es.channels.lookup channel with
    | some subs => subs
    | none => []
  fanOut env channel payload snapshot w2

/-! ## The callbacks of `run` (server.go, lines 48-75) -/

/-- Source: `OnClientConnect` (server.go, lines 48-54). -/
def OnClientConnect (env : Env) (w : World) (c : Client) : World :=
  match w.es.GetLastMessage c.Channel with
  | some msg =>
    let w1 := w.logLine "Sending last message to new client."
    (c.SendMessage env w1 msg).1
  | none => w

/-- Source: `OnChannelCreate` (server.go, lines 55-61). -/
def OnChannelCreate (env : Env) (w : World) (channelName : GoString) : World :=
  match cacheGet env w channelName with
  | (w1, Except.ok msg) =>
    let w2 := w1.logLine "Loading last message from cache."
    SetLastMessage w2 channelName msg
  | (w1, Except.error _) => w1

/-- Source: `OnMessage` (server.go, lines 70-75).  The conversion
`string(eventMessage.Data[:])` keeps the bytes as they are. -/
def OnMessage (env : Env) (w : World) (eventMessage : BrokerMessage) : World :=
  let c := eventMessage.Channel
  let msg : GoString := eventMessage.Data
  let w1 := cacheSet env w c msg
  SendMessage env w1 c msg

/-- Modelled from the spec: `Subscribe(channelName, client)` (package `sse` is missing):
"if the channel does not yet exist, creates it and synchronously raises a ChannelCreate
event [...] before the client is added.  Adds the client to the channel's subscriber set";
then the client-connect event (§4.3). -/
def Subscribe (env : Env) (w : World) (c : Client) : World :=
  let w1 := match w.es.channels.lookup c.Channel with
    | some _ => w
    | none =>
      OnChannelCreate env
        { w with es := { w.es with channels := w.es.channels.insert c.Channel [] } } c.Channel
  let subs := match w1.es.channels.lookup c.Channel with
    | some l => l
    | none => []
  let w2 : World :=
    { w1 with es := { w1.es with channels := w1.es.channels.insert c.Channel (subs ++ [c]) } }
  OnClientConnect env w2 c

/-- The payloads passed to `SendMessage` of the client `id`, in order. -/
def sentTo (id : Nat) : List Event → List GoString
  | [] => []
  | Event.clientSend i p :: rest => if i = id then p :: sentTo id rest else sentTo id rest
  | _ :: rest => sentTo id rest

/-! ## The `/api/stats` handler (server.go, lines 19-28 and 105-128) -/

/-- Source: `type ChannelStats struct`. -/
structure ChannelStats where
  ClientCount : Int
deriving DecidableEq

/-- Source: `type Stats struct`. -/
structure Stats where
  PoolCount : Int
  ChannelCount : Int
  ClientCount : Int
  Channels : GoMap GoString ChannelStats

/-- Modelled from the spec: `EventSource.Channels()` (package `sse` is missing): "a snapshot
sequence of current channel names". -/
def EventSource.Channels (es : EventSource) : List GoString :=
  es.channels.keys

/-- Modelled from the spec: `EventSource.ConnectionCountPerChannel(name)` (package `sse` is
missing): "returns 0 for an absent channel, else the subscriber count". -/
def EventSource.ConnectionCountPerChannel (es : EventSource) (name : GoString) : Int :=
  match es.channels.lookup name with
  | some subs => subs.length
  | none => 0

/-- Modelled from the spec: `EventSource.ConnectionCount()` (package `sse` is missing): "sum
of subscriber counts over all channels". -/
def EventSource.ConnectionCount (es : EventSource) : Int :=
  (es.channels.entries.map (fun e => (e.2.length : Int))).sum

/-- Source: the loop `for _, name := range channels` of the stats handler, one iteration. -/
def statsLoopBody (es : EventSource) (stats : Stats) (name : GoString) : Stats :=
  { stats with
    Channels := stats.Channels.insert name (ChannelStats.mk (es.ConnectionCountPerChannel name)) }

/-- Source: the value `stats` that the stats handler builds (server.go, lines 106-118). -/
def buildStats (w : World) : Stats :=
  let channels := w.es.Channels
  let stats : Stats :=
    Stats.mk w.cache.ConnectionCount channels.length w.es.ConnectionCount ∅
  channels.foldl (statsLoopBody w.es) stats

/-- A JSON document, as far as `Stats` needs it: a number, or an object with its members in
order. -/
inductive Json
  | num (n : Int)
  | obj (members : List (GoString × Json))

/-- The names of the members of a JSON object, in order (none for a number). -/
def Json.fieldNames : Json → List GoString
  | Json.num _ => []
  | Json.obj members => members.map Prod.fst

/-- The member `name` of a JSON object, when there is one. -/
def Json.field (name : GoString) : Json → Option Json
  | Json.num _ => none
  | Json.obj members => (members.find? (fun m => m.1 = name)).map Prod.snd

/-- The values of the members of a JSON object, in order. -/
def Json.fieldValues : Json → List Json
  | Json.num _ => []
  | Json.obj members => members.map Prod.snd

/-- Standard library `json.Marshal` on a `ChannelStats`: one member per exported field,
named by its `json` tag. -/
def ChannelStats.toJson (c : ChannelStats) : Json :=
  Json.obj [(goStr "client_count", Json.num c.ClientCount)]

/-- Standard library `json.Marshal` on a `Stats`: one member per exported field, in the
order of declaration, named by its `json` tag; a map becomes an object with one member per
entry. -/
def Stats.toJson (s : Stats) : Json :=
  Json.obj
    [ (goStr "pool_count", Json.num s.PoolCount),
      (goStr "channel_count", Json.num s.ChannelCount),
      (goStr "client_count", Json.num s.ClientCount),
      (goStr "channels", Json.obj (s.Channels.entries.map (fun e => (e.1, e.2.toJson)))) ]

/-- Standard library `json.Marshal(&stats)`: the document the bytes `dump` denote; it has no
error for a struct of integers and a map with string keys. -/
def jsonMarshal (s : Stats) : Except String Json :=
  Except.ok s.toJson

/-- Source: the handler of `/api/stats` (server.go, lines 105-128). -/
def statsHandler (w : World) (rw : ResponseWriter Json) : ResponseWriter Json :=
  let stats := buildStats w
  match jsonMarshal stats with
  | Except.ok dump => (rw.HeaderSet "Content-Type" "application/json").Write dump
  | Except.error _ => rw.WriteHeader StatusInternalServerError

/-! ## Reading a trace -/

/-- The calls of `es.SendMessage` in a trace, in order. -/
def sendMessageCalls : List Event → List (GoString × GoString)
  | [] => []
  | Event.esSendMessage c p :: rest => (c, p) :: sendMessageCalls rest
  | _ :: rest => sendMessageCalls rest

/-- An effect of the fan-out of `payload` on `channel`: a write to a client, or the removal
of a client whose write failed. -/
def Event.isFanOut (channel payload : GoString) : Event → Bool
  | Event.clientSend _ p => decide (p = payload)
  | Event.unsubscribe c _ => decide (c = channel)
  | _ => false

/-- The clients written to in a trace, in order. -/
def receivers : List Event → List Nat
  | [] => []
  | Event.clientSend i _ :: rest => i :: receivers rest
  | _ :: rest => receivers rest

/-- The subscribers of a channel in the registry (none for an absent channel). -/
def EventSource.subscribers (es : EventSource) (channel : GoString) : List Client :=
  match es.channels.lookup channel with
  | some subs => subs
  | none => []

/-! ## Concrete inputs -/

/-- A store without TTL that holds nothing. -/
def emptyStore : Storage :=
  Storage.mk (Settings.mk (goStr "redis://127.0.0.1:6379/0") 0) ∅ 1

/-- The world right after start: nothing stored, no subscriber, nothing cached. -/
def emptyWorld : World :=
  World.mk emptyStore (EventSource.mk ∅ ∅) []

/-- The channel `room1`. -/
def room1 : GoString := goStr "room1"

/-- The world in which client 1 is the only subscriber, of `room1`. -/
def roomWorld : World :=
  World.mk emptyStore (EventSource.mk ((∅ : AList _).insert room1 [Client.mk 1 room1]) ∅) []

/-- The store answers, no transport is broken. -/
def envUp : Env := Env.mk 0 true []

/-- The store does not answer, no transport is broken. -/
def envDown : Env := Env.mk 0 false []

/-- The broker message `hello` for `room1`. -/
def hello : BrokerMessage := BrokerMessage.mk room1 (goStr "hello")

/-- The world after `hello` was published to `room1` while the store did not answer and
nobody was subscribed. -/
def publishedUnstored : World :=
  OnMessage envDown emptyWorld hello

/-- The broker message `old` for `room1`. -/
def old : BrokerMessage := BrokerMessage.mk room1 (goStr "old")

/-- The world after `old` was published to `room1` and written to the store, and `hello`
was published to `room1` while the store did not answer; nobody was subscribed. -/
def publishedStale : World :=
  OnMessage envDown (OnMessage envUp emptyWorld old) hello

/-- A store with a TTL of 3 seconds that holds nothing (`TestWithTTL`). -/
def ttlStore : Storage :=
  Storage.mk (Settings.mk (goStr "redis://127.0.0.1:6379/0") 3) ∅ 1

/-! # Theorems -/

/-! ## Lemmas on the store -/

theorem Storage.SetAll_lookup (writes : List (Nat × GoString × GoString)) (s : Storage)
    (key : GoString) (h : ∀ x ∈ writes, x.2.1 ≠ key) :
    (s.SetAll writes).keys.lookup key = s.keys.lookup key := by
  induction writes generalizing s with
  | nil => rfl
  | cons x rest ih =>
    obtain ⟨t, k, v⟩ := x
    have hk : key ≠ k := fun e => h (t, k, v) (List.mem_cons_self _ _) e.symm
    simp only [Storage.SetAll]
    rw [ih _ (fun y hy => h y (List.mem_cons_of_mem _ hy))]
    simp only [Storage.Set]
    exact AList.lookup_insert_ne hk

theorem Storage.Set_lookup (s : Storage) (now : Nat) (key value : GoString) :
    (s.Set now key value).keys.lookup key
      = some (StoredValue.mk value
          (if 0 < s.settings.KeyTTL then some (now + s.settings.KeyTTL) else none)) := by
  simp only [Storage.Set]
  exact AList.lookup_insert _

/-- C9: `HasKey(key)` is true immediately after `Set(key, value)`; with `KeyTTL = n > 0` it
is false once more than `n` seconds have passed since the `Set`, whatever was written to
other keys in between; with `KeyTTL = 0` the key is stored without expiry: it is there at
any later time. -/
theorem C9_key_expires_after_ttl (s : Storage) (now : Nat) (key value : GoString) :
    (s.Set now key value).HasKey now key = true
    ∧ (∀ (later : Nat) (writes : List (Nat × GoString × GoString)),
        0 < s.settings.KeyTTL → now + s.settings.KeyTTL < later →
        (∀ x ∈ writes, x.2.1 ≠ key) →
        ((s.Set now key value).SetAll writes).HasKey later key = false)
    ∧ (s.settings.KeyTTL = 0 →
        ∀ (later : Nat) (writes : List (Nat × GoString × GoString)),
        (∀ x ∈ writes, x.2.1 ≠ key) →
        ((s.Set now key value).SetAll writes).HasKey later key = true) := by
  refine ⟨?_, ?_, ?_⟩
  · simp only [Storage.HasKey, Storage.Get, Storage.Set_lookup]
    by_cases h : 0 < s.settings.KeyTTL
    · simp [h, StoredValue.live]
    · simp [h, StoredValue.live]
  · intro later writes hpos hlate hw
    simp only [Storage.HasKey, Storage.Get, Storage.SetAll_lookup writes _ key hw,
      Storage.Set_lookup]
    simp [hpos, StoredValue.live]
    omega
  · intro hzero later writes hw
    simp only [Storage.HasKey, Storage.Get, Storage.SetAll_lookup writes _ key hw,
      Storage.Set_lookup]
    simp [hzero, StoredValue.live]

/-- C10: `defaultValue(a, b)` is `b` when `a` is empty and `a` otherwise; hence a variable
of the environment set to the empty string gives the default, as an unset one does; the
result is non-empty whenever `b` is; and `defaultValue(defaultValue(a, b), b)` is
`defaultValue(a, b)`. -/
theorem C10_defaultValue (a b : GoString) :
    defaultValue [] b = b
    ∧ (a ≠ [] → defaultValue a b = a)
    ∧ (∀ (environ : GoMap GoString GoString) (key : GoString),
        defaultValue (Getenv (environ.insert key []) key) b = b
        ∧ defaultValue (Getenv (environ.erase key) key) b = b)
    ∧ (b ≠ [] → defaultValue a b ≠ [])
    ∧ defaultValue (defaultValue a b) b = defaultValue a b := by
  refine ⟨rfl, ?_, ?_, ?_, ?_⟩
  · intro ha
    simp [defaultValue, ha]
  · intro environ key
    constructor
    · simp [Getenv, defaultValue, AList.lookup_insert]
    · simp [Getenv, defaultValue, AList.lookup_erase]
  · intro hb
    unfold defaultValue
    split
    · exact hb
    · intro h; simp_all
  · unfold defaultValue
    by_cases h : a.length = 0
    · simp only [h, if_true]
      split <;> rfl
    · simp [h]

/-- C6: for every pair of ping results the `/appstatus` handler answers 500, a status
outside 200..299, if and only if at least one of them is false, and 200 otherwise; its body
is the line `status:S,cache:C,broker:B` with `C = cacheOK`, `B = brokerOK` and
`S = cacheOK && brokerOK`. -/
theorem C6_appstatus (cacheOK brokerOK : Bool) :
    ((appstatusHandler cacheOK brokerOK {}).code = 500 ↔ (cacheOK = false ∨ brokerOK = false))
    ∧ (¬ (200 ≤ (appstatusHandler cacheOK brokerOK {}).code
          ∧ (appstatusHandler cacheOK brokerOK {}).code < 300)
        ↔ (cacheOK = false ∨ brokerOK = false))
    ∧ ((appstatusHandler cacheOK brokerOK {}).code = 200 ↔ (cacheOK = true ∧ brokerOK = true))
    ∧ (appstatusHandler cacheOK brokerOK {}).body
        = [goStr ("status:" ++ fmtBool (cacheOK && brokerOK) ++ ",cache:" ++ fmtBool cacheOK
            ++ ",broker:" ++ fmtBool brokerOK)]
    ∧ fmtBool true = "true" ∧ fmtBool false = "false" := by
  cases cacheOK <;> cases brokerOK <;> decide

/-! ## Lemmas on the event source -/

theorem sentTo_append (id : Nat) (xs ys : List Event) :
    sentTo id (xs ++ ys) = sentTo id xs ++ sentTo id ys := by
  induction xs with
  | nil => rfl
  | cons e rest ih =>
    cases e <;> simp [sentTo, ih]
    split <;> simp

theorem sendMessageCalls_append (xs ys : List Event) :
    sendMessageCalls (xs ++ ys) = sendMessageCalls xs ++ sendMessageCalls ys := by
  induction xs with
  | nil => rfl
  | cons e rest ih =>
    cases e <;> simp [sendMessageCalls, ih]

theorem receivers_append (xs ys : List Event) :
    receivers (xs ++ ys) = receivers xs ++ receivers ys := by
  induction xs with
  | nil => rfl
  | cons e rest ih =>
    cases e <;> simp [receivers, ih]

theorem sendMessageCalls_of_isFanOut (channel payload : GoString) (xs : List Event)
    (h : ∀ e ∈ xs, e.isFanOut channel payload = true) : sendMessageCalls xs = [] := by
  induction xs with
  | nil => rfl
  | cons e rest ih =>
    have he := h e (List.mem_cons_self _ _)
    have hr := ih (fun x hx => h x (List.mem_cons_of_mem _ hx))
    cases e <;> simp_all [sendMessageCalls, Event.isFanOut]

/-- What `Unsubscribe` leaves alone. -/
theorem Unsubscribe_spec (w : World) (channelName : GoString) (c : Client) :
    (Unsubscribe w channelName c).cache = w.cache
    ∧ (Unsubscribe w channelName c).es.lastMessages = w.es.lastMessages
    ∧ ((Unsubscribe w channelName c).trace = w.trace
        ∨ (Unsubscribe w channelName c).trace = w.trace ++ [Event.unsubscribe channelName c.id]) := by
  unfold Unsubscribe
  split
  · exact ⟨rfl, rfl, Or.inl rfl⟩
  · split
    · exact ⟨rfl, rfl, Or.inr rfl⟩
    · exact ⟨rfl, rfl, Or.inl rfl⟩

/-- The fan-out writes `payload` once to every member of the snapshot, in order, and does
nothing else than removing clients from the registry. -/
theorem fanOut_spec (env : Env) (channel payload : GoString) (subs : List Client) (w : World) :
    (fanOut env channel payload subs w).cache = w.cache
    ∧ (fanOut env channel payload subs w).es.lastMessages = w.es.lastMessages
    ∧ ∃ fan, (fanOut env channel payload subs w).trace = w.trace ++ fan
        ∧ (∀ e ∈ fan, e.isFanOut channel payload = true)
        ∧ receivers fan = subs.map Client.id := by
  induction subs generalizing w with
  | nil => exact ⟨rfl, rfl, [], by simp [fanOut], by simp, rfl⟩
  | cons c rest ih =>
    simp only [fanOut, Client.SendMessage]
    by_cases hd : env.dead.contains c.id = true
    · obtain ⟨hc, hl, ht⟩ := Unsubscribe_spec (w.emit (Event.clientSend c.id payload)) channel c
      obtain ⟨ihc, ihl, fan, ihf, ihe, ihr⟩ :=
        ih (Unsubscribe (w.emit (Event.clientSend c.id payload)) channel c)
      simp only [hd, Bool.not_true, Bool.false_eq_true, if_false]
      refine ⟨by rw [ihc, hc]; rfl, by rw [ihl, hl]; rfl, ?_⟩
      rcases ht with ht | ht
      · refine ⟨Event.clientSend c.id payload :: fan, ?_, ?_, ?_⟩
        · rw [ihf, ht]; simp [World.emit]
        · intro e he
          rcases List.mem_cons.1 he with rfl | he
          · simp [Event.isFanOut]
          · exact ihe e he
        · simp [receivers, ihr]
      · refine ⟨Event.clientSend c.id payload :: Event.unsubscribe channel c.id :: fan, ?_, ?_, ?_⟩
        · rw [ihf, ht]; simp [World.emit]
        · intro e he
          rcases List.mem_cons.1 he with rfl | he
          · simp [Event.isFanOut]
          · rcases List.mem_cons.1 he with rfl | he
            · simp [Event.isFanOut]
            · exact ihe e he
        · simp [receivers, ihr]
    · obtain ⟨ihc, ihl, fan, ihf, ihe, ihr⟩ := ih (w.emit (Event.clientSend c.id payload))
      simp only [hd, Bool.not_false, if_true]
      refine ⟨by rw [ihc]; rfl, by rw [ihl]; rfl, Event.clientSend c.id payload :: fan, ?_, ?_, ?_⟩
      · rw [ihf]; simp [World.emit]
      · intro e he
        rcases List.mem_cons.1 he with rfl | he
        · simp [Event.isFanOut]
        · exact ihe e he
      · simp [receivers, ihr]

/-- What `es.SendMessage` does: the cache entry of the channel becomes the payload, every
subscriber of the snapshot is written to once, the store is not touched. -/
theorem SendMessage_spec (env : Env) (w : World) (channel payload : GoString) :
    (SendMessage env w channel payload).cache = w.cache
    ∧ (SendMessage env w channel payload).es.lastMessages
        = w.es.lastMessages.insert channel payload
    ∧ ∃ fan, (SendMessage env w channel payload).trace
          = w.trace ++ [Event.esSendMessage channel payload,
              Event.setLastMessage channel payload] ++ fan
        ∧ (∀ e ∈ fan, e.isFanOut channel payload = true)
        ∧ receivers fan = (w.es.subscribers channel).map Client.id := by
  unfold SendMessage
  obtain ⟨hc, hl, fan, hf, he, hr⟩ := fanOut_spec env channel payload
    (match (SetLastMessage (w.emit (Event.esSendMessage channel payload)) channel
        payload).es.channels.lookup channel with
      | some subs => subs
      | none => [])
    (SetLastMessage (w.emit (Event.esSendMessage channel payload)) channel payload)
  refine ⟨hc, hl, fan, ?_, he, hr⟩
  rw [hf]
  simp [SetLastMessage, World.emit]

theorem Unsubscribe_cache (w : World) (channelName : GoString) (c : Client) (s : Storage) :
    Unsubscribe (World.mk s w.es w.trace) channelName c
      = World.mk s (Unsubscribe w channelName c).es (Unsubscribe w channelName c).trace := by
  unfold Unsubscribe
  simp only
  split
  · rfl
  · split <;> rfl

theorem fanOut_cache (env : Env) (channel payload : GoString) (subs : List Client) (w : World)
    (s : Storage) :
    fanOut env channel payload subs (World.mk s w.es w.trace)
      = World.mk s (fanOut env channel payload subs w).es
          (fanOut env channel payload subs w).trace := by
  induction subs generalizing w with
  | nil => rfl
  | cons c rest ih =>
    simp only [fanOut, Client.SendMessage]
    split
    · exact ih (w.emit (Event.clientSend c.id payload))
    · rw [← ih]
      congr 1
      exact Unsubscribe_cache (w.emit (Event.clientSend c.id payload)) channel c s

theorem fanOut_env (env env1 : Env) (h : env.dead = env1.dead) (channel payload : GoString)
    (subs : List Client) (w : World) :
    fanOut env channel payload subs w = fanOut env1 channel payload subs w := by
  induction subs generalizing w with
  | nil => rfl
  | cons c rest ih =>
    simp only [fanOut, Client.SendMessage, h, ih]

theorem SendMessage_cache (env env1 : Env) (h : env.dead = env1.dead) (w : World)
    (channel payload : GoString) (s : Storage) :
    SendMessage env (World.mk s w.es w.trace) channel payload
      = World.mk s (SendMessage env1 w channel payload).es
          (SendMessage env1 w channel payload).trace := by
  unfold SendMessage
  rw [fanOut_env env env1 h]
  exact fanOut_cache env1 channel payload
    (match (SetLastMessage (w.emit (Event.esSendMessage channel payload)) channel
        payload).es.channels.lookup channel with
      | some subs => subs
      | none => [])
    (SetLastMessage (w.emit (Event.esSendMessage channel payload)) channel payload) s

/-- C4: `OnMessage` calls `es.SendMessage` exactly once, with the channel of the message and
its bytes as the payload, whether the write to the store succeeds or fails; the event
source and the whole trace of calls (the fan-out included) are the same in both cases. -/
theorem C4_store_failure_keeps_fanout (env : Env) (w : World) (eventMessage : BrokerMessage) :
    sendMessageCalls (OnMessage env w eventMessage).trace
        = sendMessageCalls w.trace ++ [(eventMessage.Channel, eventMessage.Data)]
    ∧ (OnMessage { env with storeUp := false } w eventMessage).es
        = (OnMessage { env with storeUp := true } w eventMessage).es
    ∧ (OnMessage { env with storeUp := false } w eventMessage).trace
        = (OnMessage { env with storeUp := true } w eventMessage).trace := by
  refine ⟨?_, ?_, ?_⟩
  · obtain ⟨-, -, fan, hf, he, -⟩ := SendMessage_spec env
      (cacheSet env w eventMessage.Channel eventMessage.Data) eventMessage.Channel
      eventMessage.Data
    have hcs : (cacheSet env w eventMessage.Channel eventMessage.Data).trace
        = w.trace ++ [Event.storeSet eventMessage.Channel eventMessage.Data] := by
      unfold cacheSet
      simp only [World.emit]
      split <;> rfl
    simp only [OnMessage]
    rw [hf, hcs]
    simp [sendMessageCalls_append, sendMessageCalls,
      sendMessageCalls_of_isFanOut _ _ fan he]
  · simp only [OnMessage, cacheSet, if_true, Bool.false_eq_true, if_false]
    rw [SendMessage_cache (Env.mk env.now true env.dead) (Env.mk env.now false env.dead) rfl
      (w.emit (Event.storeSet eventMessage.Channel eventMessage.Data))
      eventMessage.Channel eventMessage.Data
      ((w.emit (Event.storeSet eventMessage.Channel eventMessage.Data)).cache.Set env.now
        eventMessage.Channel eventMessage.Data)]
  · simp only [OnMessage, cacheSet, if_true, Bool.false_eq_true, if_false]
    rw [SendMessage_cache (Env.mk env.now true env.dead) (Env.mk env.now false env.dead) rfl
      (w.emit (Event.storeSet eventMessage.Channel eventMessage.Data))
      eventMessage.Channel eventMessage.Data
      ((w.emit (Event.storeSet eventMessage.Channel eventMessage.Data)).cache.Set env.now
        eventMessage.Channel eventMessage.Data)]

/-- C5, as stated, fails: with one subscriber on `room1`, handling `hello` calls the store
first; the in-memory cache is updated after it, inside `es.SendMessage`. -/
theorem C5_counterexample :
    (OnMessage envUp roomWorld hello).trace
      = [Event.storeSet room1 (goStr "hello"), Event.esSendMessage room1 (goStr "hello"),
          Event.setLastMessage room1 (goStr "hello"), Event.clientSend 1 (goStr "hello")]
    ∧ List.indexOf (Event.storeSet room1 (goStr "hello")) (OnMessage envUp roomWorld hello).trace
      < List.indexOf (Event.setLastMessage room1 (goStr "hello"))
          (OnMessage envUp roomWorld hello).trace := by
  decide

/-- C5, amended: handling a broker message performs its effects in the order: the write to
the store, then (inside `es.SendMessage`) the update of the in-memory last-message cache,
then the fan-out, one write per subscriber of the channel; the in-memory update never
precedes the store write. -/
theorem C5_store_write_then_cache_then_fanout (env : Env) (w : World)
    (eventMessage : BrokerMessage) :
    ∃ fan, (OnMessage env w eventMessage).trace
        = w.trace ++ [Event.storeSet eventMessage.Channel eventMessage.Data,
            Event.esSendMessage eventMessage.Channel eventMessage.Data,
            Event.setLastMessage eventMessage.Channel eventMessage.Data] ++ fan
      ∧ (∀ e ∈ fan, e.isFanOut eventMessage.Channel eventMessage.Data = true)
      ∧ receivers fan = (w.es.subscribers eventMessage.Channel).map Client.id := by
  obtain ⟨-, -, fan, hf, he, hr⟩ := SendMessage_spec env
    (cacheSet env w eventMessage.Channel eventMessage.Data) eventMessage.Channel
    eventMessage.Data
  have hcs : (cacheSet env w eventMessage.Channel eventMessage.Data).trace
      = w.trace ++ [Event.storeSet eventMessage.Channel eventMessage.Data] := by
    unfold cacheSet
    simp only [World.emit]
    split <;> rfl
  have hes : (cacheSet env w eventMessage.Channel eventMessage.Data).es = w.es := by
    unfold cacheSet
    simp only [World.emit]
    split <;> rfl
  refine ⟨fan, ?_, he, ?_⟩
  · simp only [OnMessage]
    rw [hf, hcs]
    simp
  · rw [hr, hes]

/-- C2: `OnClientConnect` sends the cached last message of the client's channel to that
client, once, when there is one, and nothing when there is none; it sends nothing to any
other client and changes neither the event source (so not the last-message cache) nor the
store. -/
theorem C2_replay_to_new_client_only (env : Env) (w : World) (c : Client) :
    (OnClientConnect env w c).es = w.es
    ∧ (OnClientConnect env w c).cache = w.cache
    ∧ sentTo c.id (OnClientConnect env w c).trace
        = sentTo c.id w.trace ++
          (match w.es.GetLastMessage c.Channel with
            | some msg => [msg]
            | none => [])
    ∧ (∀ d : Nat, d ≠ c.id →
        sentTo d (OnClientConnect env w c).trace = sentTo d w.trace)
    ∧ receivers (OnClientConnect env w c).trace
        = receivers w.trace ++
          (match w.es.GetLastMessage c.Channel with
            | some _ => [c.id]
            | none => []) := by
  unfold OnClientConnect
  cases h : w.es.GetLastMessage c.Channel with
  | none => simp
  | some msg =>
    refine ⟨rfl, rfl, ?_, ?_, ?_⟩
    · simp [Client.SendMessage, World.logLine, World.emit, sentTo_append, sentTo]
    · intro d hd
      simp [Client.SendMessage, World.logLine, World.emit, sentTo_append, sentTo, Ne.symm hd]
    · simp [Client.SendMessage, World.logLine, World.emit, receivers_append, receivers]

/-- What `OnChannelCreate` does when the store holds a value for the name. -/
theorem OnChannelCreate_found (env : Env) (w : World) (channelName v : GoString)
    (hup : env.storeUp = true) (hget : w.cache.Get env.now channelName = some v) :
    OnChannelCreate env w channelName
      = SetLastMessage ((w.emit (Event.storeGet channelName)).logLine
          "Loading last message from cache.") channelName v := by
  have h : (w.emit (Event.storeGet channelName)).cache.Get env.now channelName = some v := hget
  simp only [OnChannelCreate, cacheGet, hup, if_true, h]

/-- What `OnChannelCreate` does when the store holds no value for the name, or does not
answer. -/
theorem OnChannelCreate_not_found (env : Env) (w : World) (channelName : GoString)
    (h : env.storeUp = false ∨ w.cache.Get env.now channelName = none) :
    OnChannelCreate env w channelName = w.emit (Event.storeGet channelName) := by
  by_cases hup : env.storeUp = true
  · have hget : (w.emit (Event.storeGet channelName)).cache.Get env.now channelName = none := by
      rcases h with h | h
      · simp [hup] at h
      · exact h
    simp only [OnChannelCreate, cacheGet, hup, if_true, hget]
  · simp [OnChannelCreate, cacheGet, hup]

/-- C3, as stated, fails: `hello` was published to `room1` while nobody was subscribed, so
the in-memory cache holds it; when the first client subscribes the lookup in the store
fails and `OnChannelCreate` leaves the cache unchanged, yet the new client is offered a
replay, of `hello`. -/
theorem C3_counterexample :
    (cacheGet envDown publishedUnstored room1).2.toBool = false
    ∧ (OnChannelCreate envDown publishedUnstored room1).es.lastMessages.entries
        = publishedUnstored.es.lastMessages.entries
    ∧ publishedUnstored.es.channels.lookup room1 = none
    ∧ sentTo 7 publishedUnstored.trace = []
    ∧ sentTo 7 (Subscribe envDown publishedUnstored (Client.mk 7 room1)).trace
        = [goStr "hello"] := by
  decide

/-- C3, amended: `OnChannelCreate` sets the in-memory last message of the channel to the
store's value exactly when the store holds a value for the name (found), touching no other
channel's entry; when the store has no value for the name or the lookup fails, the event
source is left unchanged, so that a new client is offered no replay provided no last message
was cached in memory for the channel already. -/
theorem C3_channel_create_primes_cache (env : Env) (w : World) (channelName : GoString) :
    (∀ v : GoString, env.storeUp = true → w.cache.Get env.now channelName = some v →
        (OnChannelCreate env w channelName).es.GetLastMessage channelName = some v
        ∧ (∀ other : GoString, other ≠ channelName →
            (OnChannelCreate env w channelName).es.GetLastMessage other
              = w.es.GetLastMessage other)
        ∧ (OnChannelCreate env w channelName).trace
            = w.trace ++ [Event.storeGet channelName,
                Event.log "Loading last message from cache.",
                Event.setLastMessage channelName v])
    ∧ ((env.storeUp = false ∨ w.cache.Get env.now channelName = none) →
        (OnChannelCreate env w channelName).es = w.es
        ∧ (OnChannelCreate env w channelName).trace = w.trace ++ [Event.storeGet channelName])
    ∧ (∀ c : Client, c.Channel = channelName →
        (env.storeUp = false ∨ w.cache.Get env.now channelName = none) →
        w.es.channels.lookup channelName = none →
        w.es.GetLastMessage channelName = none →
        receivers (Subscribe env w c).trace = receivers w.trace) := by
  refine ⟨?_, ?_, ?_⟩
  · intro v hup hget
    rw [OnChannelCreate_found env w channelName v hup hget]
    refine ⟨?_, ?_, ?_⟩
    · simp [SetLastMessage, EventSource.GetLastMessage, World.logLine, World.emit]
    · intro other hne
      simp only [SetLastMessage, EventSource.GetLastMessage, World.logLine, World.emit]
      exact AList.lookup_insert_ne hne
    · simp [SetLastMessage, World.logLine, World.emit]
  · intro h
    rw [OnChannelCreate_not_found env w channelName h]
    exact ⟨rfl, rfl⟩
  · intro c hc h hreg hmem
    subst hc
    have hcc : OnChannelCreate env
        { w with es := { w.es with channels := w.es.channels.insert c.Channel [] } } c.Channel
        = World.emit
          { w with es := { w.es with channels := w.es.channels.insert c.Channel [] } }
          (Event.storeGet c.Channel) :=
      OnChannelCreate_not_found env _ c.Channel h
    simp only [Subscribe, hreg, hcc]
    simp only [OnClientConnect, EventSource.GetLastMessage, World.emit] at hmem ⊢
    simp [hmem, receivers_append, receivers]

theorem OnClientConnect_sentTo (env : Env) (w : World) (c : Client) (msg : GoString)
    (h : w.es.GetLastMessage c.Channel = some msg) :
    sentTo c.id (OnClientConnect env w c).trace = sentTo c.id w.trace ++ [msg] := by
  simp [OnClientConnect, h, Client.SendMessage, World.logLine, World.emit, sentTo_append,
    sentTo]

theorem OnMessage_cache (env : Env) (w : World) (eventMessage : BrokerMessage) :
    (OnMessage env w eventMessage).cache
      = if env.storeUp then w.cache.Set env.now eventMessage.Channel eventMessage.Data
        else w.cache := by
  simp only [OnMessage]
  rw [(SendMessage_spec env _ _ _).1]
  unfold cacheSet
  split <;> rfl

theorem OnMessage_lastMessage (env : Env) (w : World) (eventMessage : BrokerMessage) :
    (OnMessage env w eventMessage).es.GetLastMessage eventMessage.Channel
      = some eventMessage.Data := by
  simp only [OnMessage, EventSource.GetLastMessage]
  rw [(SendMessage_spec env _ _ _).2.1]
  exact AList.lookup_insert _

theorem Storage.Get_Set (s : Storage) (now later : Nat) (key value v : GoString)
    (h : (s.Set now key value).Get later key = some v) : v = value := by
  simp only [Storage.Get, Storage.Set_lookup] at h
  split_ifs at h <;> simp_all

/-- A client that subscribes to a channel whose cached last message is `msg` is sent `msg`,
unless the channel is created by this subscription and the store hands back another
value. -/
theorem Subscribe_sentTo (env : Env) (w : World) (c : Client) (msg : GoString)
    (hmem : w.es.GetLastMessage c.Channel = some msg)
    (h : w.es.channels.lookup c.Channel ≠ none ∨ env.storeUp = false
      ∨ w.cache.Get env.now c.Channel = none ∨ w.cache.Get env.now c.Channel = some msg) :
    sentTo c.id (Subscribe env w c).trace = sentTo c.id w.trace ++ [msg] := by
  cases hreg : w.es.channels.lookup c.Channel with
  | some subs =>
    have hsub : Subscribe env w c
        = OnClientConnect env
          (World.mk w.cache
            (EventSource.mk (w.es.channels.insert c.Channel (subs ++ [c])) w.es.lastMessages)
            w.trace) c := by
      simp [Subscribe, hreg]
    rw [hsub]
    exact OnClientConnect_sentTo env
      (World.mk w.cache
        (EventSource.mk (w.es.channels.insert c.Channel (subs ++ [c])) w.es.lastMessages)
        w.trace) c msg hmem
  | none =>
    have h1 : env.storeUp = false ∨ w.cache.Get env.now c.Channel = none
        ∨ w.cache.Get env.now c.Channel = some msg := by
      rcases h with h | h
      · exact absurd hreg h
      · exact h
    by_cases hfound : env.storeUp = true ∧ w.cache.Get env.now c.Channel = some msg
    · have hcc := OnChannelCreate_found env
        (World.mk w.cache (EventSource.mk (w.es.channels.insert c.Channel []) w.es.lastMessages)
          w.trace)
        c.Channel msg hfound.1 hfound.2
      have hsub : Subscribe env w c
          = OnClientConnect env
            (World.mk w.cache
              (EventSource.mk
                ((w.es.channels.insert c.Channel []).insert c.Channel ([] ++ [c]))
                (w.es.lastMessages.insert c.Channel msg))
              (w.trace ++ [Event.storeGet c.Channel] ++
                [Event.log "Loading last message from cache."] ++
                [Event.setLastMessage c.Channel msg])) c := by
        simp only [Subscribe, hreg, hcc]
        simp [SetLastMessage, World.logLine, World.emit]
      rw [hsub, OnClientConnect_sentTo env _ c msg
        (by simp [EventSource.GetLastMessage])]
      simp [sentTo_append, sentTo]
    · have hnf : env.storeUp = false ∨ w.cache.Get env.now c.Channel = none := by
        rcases h1 with h1 | h1 | h1
        · exact Or.inl h1
        · exact Or.inr h1
        · left
          cases hs : env.storeUp with
          | false => rfl
          | true => exact absurd ⟨hs, h1⟩ hfound
      have hcc := OnChannelCreate_not_found env
        (World.mk w.cache (EventSource.mk (w.es.channels.insert c.Channel []) w.es.lastMessages)
          w.trace)
        c.Channel hnf
      have hsub : Subscribe env w c
          = OnClientConnect env
            (World.mk w.cache
              (EventSource.mk
                ((w.es.channels.insert c.Channel []).insert c.Channel ([] ++ [c]))
                w.es.lastMessages)
              (w.trace ++ [Event.storeGet c.Channel])) c := by
        simp only [Subscribe, hreg, hcc]
        simp [World.emit]
      rw [hsub, OnClientConnect_sentTo env
        (World.mk w.cache
          (EventSource.mk
            ((w.es.channels.insert c.Channel []).insert c.Channel ([] ++ [c]))
            w.es.lastMessages)
          (w.trace ++ [Event.storeGet c.Channel])) c msg hmem]
      simp [sentTo_append, sentTo]

/-- C1, as stated, fails: `old` is published to `room1` and stored; `hello` is published
to `room1` while the store does not answer; nobody is subscribed.  The first client that
subscribes afterwards creates the channel, `OnChannelCreate` reads `old` back from the store
over the cached `hello`, and `old` is the first message sent to the client. -/
theorem C1_counterexample :
    sentTo 7 publishedStale.trace = []
    ∧ (sentTo 7 (Subscribe envUp publishedStale (Client.mk 7 room1)).trace).head?
        = some (goStr "old")
    ∧ goStr "old" ≠ hello.Data := by
  decide

/-- C1, amended: after `OnMessage` has handled a message `(C, P)`, subscribing a client to
`C` sends `P` to that client, as its first message when nothing was sent to it before,
whether or not a client was subscribed to `C` when `P` was published, provided the write of
`P` to the store succeeded, or `C` has a subscriber when the client joins, or the store,
asked on channel creation, does not answer, has no value for `C`, or has `P`. -/
theorem C1_replay_after_publish (env1 env2 : Env) (w : World) (eventMessage : BrokerMessage)
    (c : Client) (hc : c.Channel = eventMessage.Channel)
    (h : env1.storeUp = true
      ∨ (OnMessage env1 w eventMessage).es.channels.lookup eventMessage.Channel ≠ none
      ∨ env2.storeUp = false
      ∨ (OnMessage env1 w eventMessage).cache.Get env2.now eventMessage.Channel = none
      ∨ (OnMessage env1 w eventMessage).cache.Get env2.now eventMessage.Channel
          = some eventMessage.Data) :
    sentTo c.id (Subscribe env2 (OnMessage env1 w eventMessage) c).trace
        = sentTo c.id (OnMessage env1 w eventMessage).trace ++ [eventMessage.Data]
    ∧ (sentTo c.id (OnMessage env1 w eventMessage).trace = [] →
        (sentTo c.id (Subscribe env2 (OnMessage env1 w eventMessage) c).trace).head?
          = some eventMessage.Data) := by
  have hmain : sentTo c.id (Subscribe env2 (OnMessage env1 w eventMessage) c).trace
      = sentTo c.id (OnMessage env1 w eventMessage).trace ++ [eventMessage.Data] := by
    apply Subscribe_sentTo
    · rw [hc]
      exact OnMessage_lastMessage env1 w eventMessage
    · rw [hc]
      rcases h with h | h | h | h | h
      · cases hg : (OnMessage env1 w eventMessage).cache.Get env2.now eventMessage.Channel with
        | none => exact Or.inr (Or.inr (Or.inl rfl))
        | some v =>
          have hv : v = eventMessage.Data := by
            rw [OnMessage_cache, h] at hg
            exact Storage.Get_Set _ _ _ _ _ _ hg
          exact Or.inr (Or.inr (Or.inr (by rw [hv])))
      · exact Or.inl h
      · exact Or.inr (Or.inl h)
      · exact Or.inr (Or.inr (Or.inl h))
      · exact Or.inr (Or.inr (Or.inr h))
  refine ⟨hmain, ?_⟩
  intro hnew
  rw [hmain, hnew]
  rfl

/-! ## Lemmas on the stats loop -/

theorem statsLoop_counts (es : EventSource) (names : List GoString) (stats : Stats) :
    (names.foldl (statsLoopBody es) stats).PoolCount = stats.PoolCount
    ∧ (names.foldl (statsLoopBody es) stats).ChannelCount = stats.ChannelCount
    ∧ (names.foldl (statsLoopBody es) stats).ClientCount = stats.ClientCount := by
  induction names generalizing stats with
  | nil => exact ⟨rfl, rfl, rfl⟩
  | cons n rest ih =>
    simp only [List.foldl_cons]
    obtain ⟨h1, h2, h3⟩ := ih (statsLoopBody es stats n)
    exact ⟨h1, h2, h3⟩

theorem statsLoop_mem (es : EventSource) (names : List GoString) (stats : Stats)
    (name : GoString) :
    name ∈ (names.foldl (statsLoopBody es) stats).Channels
      ↔ name ∈ names ∨ name ∈ stats.Channels := by
  induction names generalizing stats with
  | nil => simp
  | cons n rest ih =>
    simp only [List.foldl_cons, ih, statsLoopBody, AList.mem_insert, List.mem_cons]
    tauto

theorem statsLoop_lookup (es : EventSource) (names : List GoString) (stats : Stats)
    (name : GoString) (h : name ∈ names) :
    (names.foldl (statsLoopBody es) stats).Channels.lookup name
      = some (ChannelStats.mk (es.ConnectionCountPerChannel name)) := by
  induction names generalizing stats with
  | nil => exact absurd h (List.not_mem_nil _)
  | cons n rest ih =>
    simp only [List.foldl_cons]
    by_cases hr : name ∈ rest
    · exact ih _ hr
    · have hn : name = n := by
        rcases List.mem_cons.1 h with h | h
        · exact h
        · exact absurd h hr
      subst hn
      have hkeep : ∀ (l : List GoString) (st : Stats), name ∉ l →
          (l.foldl (statsLoopBody es) st).Channels.lookup name = st.Channels.lookup name := by
        intro l
        induction l with
        | nil => intro st _; rfl
        | cons m l ihl =>
          intro st hm
          simp only [List.foldl_cons]
          rw [ihl _ (fun hx => hm (List.mem_cons_of_mem _ hx))]
          simp only [statsLoopBody]
          exact AList.lookup_insert_ne (fun e => hm (e ▸ List.mem_cons_self _ _))
      rw [hkeep rest _ hr]
      simp only [statsLoopBody]
      exact AList.lookup_insert _

theorem statsLoop_length (es : EventSource) (names : List GoString) (stats : Stats)
    (hnodup : names.Nodup) (hnew : ∀ n ∈ names, n ∉ stats.Channels) :
    (names.foldl (statsLoopBody es) stats).Channels.entries.length
      = stats.Channels.entries.length + names.length := by
  induction names generalizing stats with
  | nil => rfl
  | cons n rest ih =>
    simp only [List.foldl_cons, List.length_cons]
    have hn : n ∉ stats.Channels := hnew n (List.mem_cons_self _ _)
    rw [ih (statsLoopBody es stats n) (List.nodup_cons.1 hnodup).2]
    · simp only [statsLoopBody, AList.insert_entries_of_neg hn, List.length_cons]
      omega
    · intro m hm
      simp only [statsLoopBody, AList.mem_insert, not_or]
      refine ⟨?_, hnew m (List.mem_cons_of_mem _ hm)⟩
      intro e
      exact (List.nodup_cons.1 hnodup).1 (e ▸ hm)

/-- C7: the stats the `/api/stats` handler builds have `channel_count` equal to the number
of names returned by `Channels()`, `client_count` equal to `ConnectionCount()`, and a
`channels` map whose keys are exactly the names returned by `Channels()`, each mapped to
`client_count = ConnectionCountPerChannel(name)`; `channel_count` is the number of entries
of that map; the handler answers with these stats, marshalled. -/
theorem C7_stats_from_registry (w : World) :
    (buildStats w).ChannelCount = (w.es.Channels.length : Int)
    ∧ (buildStats w).ClientCount = w.es.ConnectionCount
    ∧ (∀ name : GoString, name ∈ (buildStats w).Channels.keys ↔ name ∈ w.es.Channels)
    ∧ (∀ name : GoString, name ∈ w.es.Channels →
        (buildStats w).Channels.lookup name
          = some (ChannelStats.mk (w.es.ConnectionCountPerChannel name)))
    ∧ (buildStats w).ChannelCount = ((buildStats w).Channels.entries.length : Int)
    ∧ (statsHandler w {}).body = [(buildStats w).toJson]
    ∧ (statsHandler w {}).code = 200 := by
  refine ⟨?_, ?_, ?_, ?_, ?_, rfl, rfl⟩
  · exact (statsLoop_counts w.es w.es.Channels _).2.1
  · exact (statsLoop_counts w.es w.es.Channels _).2.2
  · intro name
    rw [← AList.mem_keys]
    simp only [buildStats, statsLoop_mem]
    simp
  · intro name h
    exact statsLoop_lookup w.es w.es.Channels _ name h
  · have hlen := statsLoop_length w.es w.es.Channels
      (Stats.mk w.cache.ConnectionCount w.es.Channels.length w.es.ConnectionCount ∅)
      w.es.channels.nodupKeys (by simp)
    have hcount := (statsLoop_counts w.es w.es.Channels
      (Stats.mk w.cache.ConnectionCount w.es.Channels.length w.es.ConnectionCount ∅)).2.1
    simp only [buildStats]
    rw [hcount, hlen]
    simp

/-- C8, as stated, fails: the object returned right after start has a fourth top-level
member, `pool_count`, before the three the claim lists. -/
theorem C8_counterexample :
    (statsHandler emptyWorld {}).body.map Json.fieldNames
      = [[goStr "pool_count", goStr "channel_count", goStr "client_count", goStr "channels"]]
    ∧ goStr "pool_count" ∉ [goStr "channel_count", goStr "client_count", goStr "channels"] := by
  decide

/-- C8, amended: the object returned by `GET /api/stats` has the top-level members
`pool_count`, `channel_count`, `client_count` and `channels`, and no other; `channels` is an
object each of whose values is an object with the single member `client_count`. -/
theorem C8_stats_object_members (w : World) :
    ∃ dump channels : Json,
      (statsHandler w {}).body = [dump]
      ∧ dump.fieldNames
          = [goStr "pool_count", goStr "channel_count", goStr "client_count", goStr "channels"]
      ∧ dump.field (goStr "channels") = some channels
      ∧ channels.fieldNames = (buildStats w).Channels.keys
      ∧ ∀ v ∈ channels.fieldValues, v.fieldNames = [goStr "client_count"] := by
  refine ⟨(buildStats w).toJson,
    Json.obj ((buildStats w).Channels.entries.map (fun e => (e.1, e.2.toJson))),
    rfl, rfl, ?_, ?_, ?_⟩
  · simp only [Stats.toJson, Json.field]
    rfl
  · simp [Json.fieldNames, AList.keys, List.keys]
  · intro v hv
    simp only [Json.fieldValues, List.map_map, List.mem_map] at hv
    obtain ⟨e, -, rfl⟩ := hv
    rfl

/-! ## Witnesses -/

/-- C1 at a concrete input: `hello` is published to `room1` and stored while nobody is
subscribed; client 7 then subscribes and is sent `hello` first. -/
theorem C1_witness :
    (Client.mk 7 room1).Channel = hello.Channel
    ∧ envUp.storeUp = true
    ∧ sentTo 7 (OnMessage envUp emptyWorld hello).trace = []
    ∧ (sentTo 7 (Subscribe envUp (OnMessage envUp emptyWorld hello) (Client.mk 7 room1)).trace).head?
        = some hello.Data :=
  ⟨rfl, rfl, by decide,
    (C1_replay_after_publish envUp envUp emptyWorld hello (Client.mk 7 room1) rfl
      (Or.inl rfl)).2 (by decide)⟩

/-- C2 at a concrete input: client 2 connects to `room1` after `hello` was published to its
subscriber, client 1; nothing more is sent to client 1. -/
theorem C2_witness :
    (1 : Nat) ≠ (Client.mk 2 room1).id
    ∧ sentTo 1 (OnClientConnect envUp (OnMessage envUp roomWorld hello) (Client.mk 2 room1)).trace
        = sentTo 1 (OnMessage envUp roomWorld hello).trace :=
  ⟨by decide,
    (C2_replay_to_new_client_only envUp (OnMessage envUp roomWorld hello)
      (Client.mk 2 room1)).2.2.2.1 1 (by decide)⟩

/-- C3 at concrete inputs: with `hello` in the store the creation of `room1` primes the
cache with it; with a store that does not answer, nothing cached and no subscriber, the
event source stays as it is and the subscription of client 7 sends nothing. -/
theorem C3_witness :
    (envUp.storeUp = true
      ∧ (OnMessage envUp emptyWorld hello).cache.Get envUp.now room1 = some hello.Data
      ∧ (OnChannelCreate envUp (OnMessage envUp emptyWorld hello) room1).es.GetLastMessage room1
          = some hello.Data)
    ∧ (envDown.storeUp = false
      ∧ (OnChannelCreate envDown emptyWorld room1).es = emptyWorld.es
      ∧ receivers (Subscribe envDown emptyWorld (Client.mk 7 room1)).trace
          = receivers emptyWorld.trace) :=
  ⟨⟨rfl, by decide,
      ((C3_channel_create_primes_cache envUp (OnMessage envUp emptyWorld hello) room1).1
        hello.Data rfl (by decide)).1⟩,
    ⟨rfl,
      ((C3_channel_create_primes_cache envDown emptyWorld room1).2.1 (Or.inl rfl)).1,
      (C3_channel_create_primes_cache envDown emptyWorld room1).2.2 (Client.mk 7 room1) rfl
        (Or.inl rfl) (by decide) (by decide)⟩⟩

/-- C7 at a concrete input: with client 1 as the only subscriber, of `room1`, the stats map
`room1` to its connection count. -/
theorem C7_witness :
    room1 ∈ roomWorld.es.Channels
    ∧ (buildStats roomWorld).Channels.lookup room1
        = some (ChannelStats.mk (roomWorld.es.ConnectionCountPerChannel room1)) :=
  ⟨by decide, (C7_stats_from_registry roomWorld).2.2.2.1 room1 (by decide)⟩

/-- C9 at the inputs of the tests: with a TTL of 3 seconds the key is gone after 5 seconds;
without TTL it is still there. -/
theorem C9_witness :
    (0 < ttlStore.settings.KeyTTL ∧ 0 + ttlStore.settings.KeyTTL < 5
      ∧ ((ttlStore.Set 0 (goStr "key") (goStr "value")).SetAll []).HasKey 5 (goStr "key") = false)
    ∧ (emptyStore.settings.KeyTTL = 0
      ∧ ((emptyStore.Set 0 (goStr "key") (goStr "value")).SetAll []).HasKey 5 (goStr "key")
          = true) :=
  ⟨⟨by decide, by decide,
      (C9_key_expires_after_ttl ttlStore 0 (goStr "key") (goStr "value")).2.1 5 []
        (by decide) (by decide) (by simp)⟩,
    ⟨rfl,
      (C9_key_expires_after_ttl emptyStore 0 (goStr "key") (goStr "value")).2.2 rfl 5 []
        (by simp)⟩⟩

/-- C10 at a concrete input: `FRODO_BIND` set to `:8080` wins over the default `:3000`. -/
theorem C10_witness :
    goStr ":8080" ≠ [] ∧ goStr ":3000" ≠ []
    ∧ defaultValue (goStr ":8080") (goStr ":3000") = goStr ":8080"
    ∧ defaultValue (goStr ":8080") (goStr ":3000") ≠ [] :=
  ⟨by decide, by decide,
    (C10_defaultValue (goStr ":8080") (goStr ":3000")).2.1 (by decide),
    (C10_defaultValue (goStr ":8080") (goStr ":3000")).2.2.2.1 (by decide)⟩

/-- C5 at a concrete input: with client 1 subscribed to `room1`, handling `hello` starts
with the write to the store, then the call of `es.SendMessage` and its update of the
cache. -/
theorem C5_witness :
    (OnMessage envUp roomWorld hello).trace.take 3
      = [Event.storeSet hello.Channel hello.Data, Event.esSendMessage hello.Channel hello.Data,
          Event.setLastMessage hello.Channel hello.Data] := by
  obtain ⟨fan, h, -⟩ := C5_store_write_then_cache_then_fanout envUp roomWorld hello
  rw [h]
  rfl

/-- C8 at a concrete input: the members of the object returned when client 1 is the only
subscriber, of `room1`. -/
theorem C8_witness :
    (statsHandler roomWorld {}).body.map Json.fieldNames
      = [[goStr "pool_count", goStr "channel_count", goStr "client_count", goStr "channels"]] := by
  obtain ⟨dump, channels, hb, hn, -⟩ := C8_stats_object_members roomWorld
  rw [hb, List.map_cons, hn]
  rfl

end Frodo
